import Mathlib

/-!
Shallow embedding of the 2Dto3D stereo-reconstruction pipeline
(corner detection, stereo calibration, dense reconstruction,
point-cloud serialization), translated from the C++ sources:
`corner_detection.cpp`, `mono_calibration.cpp`, `stereo_calibration.cpp`,
`stereo_reconstruction.cpp`, `model_viewer.cpp`.

Machine floats are modelled as exact rationals carrying a finiteness flag
(`FCoord`): a C++ `float`/`double` is either finite (its exact value) or
non-finite (NaN/±inf, whose payload value is irrelevant to every code path
modelled here, since the code only ever tests `std::isfinite` on such
values before using them in a way that matters).  Text files are modelled
at token level (`Tok`/`Line`): `operator<<` of a number emits a numeric
token carrying the exact value and `operator>>` reads it back, abstracting
decimal formatting.
-/

/-- One machine floating-point coordinate: exact value plus a finiteness
flag.  When `finite = false` the value field is meaningless (NaN/±inf). -/
structure FCoord where
  val : ℚ
  finite : Bool
deriving DecidableEq, Repr

/-- A `cv::Point3f`: three float coordinates. -/
structure Pt3 where
  x : FCoord
  y : FCoord
  z : FCoord
deriving DecidableEq, Repr

/-- A `cv::Vec3b` colour in the internal BGR channel order
(index 0 = blue, 1 = green, 2 = red), each channel an 8-bit value. -/
structure Color where
  b : ℕ
  g : ℕ
  r : ℕ
deriving DecidableEq, Repr

/-- `std::isfinite(p.x) && std::isfinite(p.y) && std::isfinite(p.z)`. -/
def allFinite (p : Pt3) : Bool :=
  p.x.finite && p.y.finite && p.z.finite

/-- A finite point built from three rational values. -/
def mkPt (x y z : ℚ) : Pt3 :=
  ⟨⟨x, true⟩, ⟨y, true⟩, ⟨z, true⟩⟩

namespace StereoReconstruction

/-- `point.x*point.x + point.y*point.y + point.z*point.z`
(the square of the `distance` computed in `filterPointCloud`). -/
def sqNorm (p : Pt3) : ℚ :=
  p.x.val * p.x.val + p.y.val * p.y.val + p.z.val * p.z.val

/-- `sqrt s < d` for `s ≥ 0`, expressed without square roots:
the square root of a nonnegative `s` is below `d` iff `d` is positive
and `s < d*d`. -/
def sqrtLt (s d : ℚ) : Bool :=
  decide (0 < d ∧ s < d * d)

/-- The strict per-point condition of `filterPointCloud`
(stereo_reconstruction.cpp:325-329): all three coordinates finite,
Euclidean distance below `maxDistance`, and each coordinate magnitude
below `maxDistance`. -/
def strictKeep (maxDistance : ℚ) (p : Pt3) : Bool :=
  allFinite p && sqrtLt (sqNorm p) maxDistance &&
    decide (|p.x.val| < maxDistance) &&
    decide (|p.y.val| < maxDistance) &&
    decide (|p.z.val| < maxDistance)

/-- `StereoReconstruction::filterPointCloud`
(stereo_reconstruction.cpp:312-359).  The C++ loops over indices of the
parallel vectors, pushing surviving `(point, colour)` pairs; modelled by
filtering the zipped list.  If the strict filter keeps nothing while the
input cloud was non-empty, the fallback pass keeps every finite point
among the first 10000 entries. -/
def filterPointCloud (pointCloud : List Pt3) (colors : List Color)
    (maxDistance : ℚ) : List Pt3 × List Color :=
  let zipped := pointCloud.zip colors
  let strict := zipped.filter fun pr => strictKeep maxDistance pr.1
  if strict.isEmpty && !pointCloud.isEmpty then
    ((zipped.take 10000).filter fun pr => allFinite pr.1).unzip
  else
    strict.unzip

end StereoReconstruction

-- ### Helper lemmas about filtering zipped parallel lists

theorem map_fst_filter_zip {α β : Type} (P : α → Bool) :
    ∀ (l₁ : List α) (l₂ : List β), l₁.length = l₂.length →
      (((l₁.zip l₂).filter fun pr => P pr.1).map Prod.fst) = l₁.filter P := by
  intro l₁
  induction l₁ with
  | nil => intro l₂ _; simp
  | cons a t ih =>
      intro l₂ h
      cases l₂ with
      | nil => simp at h
      | cons b t₂ =>
          simp only [List.length_cons, Nat.succ_inj] at h
          simp only [List.zip_cons_cons, List.filter_cons]
          by_cases hP : P a
          · simp [hP, ih t₂ h]
          · simp [hP, ih t₂ h]

theorem zip_take {α β : Type} (n : ℕ) :
    ∀ (l₁ : List α) (l₂ : List β),
      (l₁.zip l₂).take n = (l₁.take n).zip (l₂.take n) := by
  induction n with
  | zero => intro l₁ l₂; simp
  | succ m ih =>
      intro l₁ l₂
      cases l₁ with
      | nil => simp
      | cons a t =>
          cases l₂ with
          | nil => simp
          | cons b t₂ => simp [List.take_succ_cons, ih]

namespace StereoReconstruction

/-- The zipped list whose unzip `filterPointCloud` returns. -/
theorem filterPointCloud_eq (pc : List Pt3) (cs : List Color) (maxD : ℚ) :
    filterPointCloud pc cs maxD =
      (if ((pc.zip cs).filter fun pr => strictKeep maxD pr.1) = [] ∧ pc ≠ [] then
        ((pc.zip cs).take 10000).filter fun pr => allFinite pr.1
      else (pc.zip cs).filter fun pr => strictKeep maxD pr.1).unzip := by
  unfold filterPointCloud
  by_cases hc : ((pc.zip cs).filter fun pr => strictKeep maxD pr.1) = [] ∧ pc ≠ []
  · rw [if_pos hc]
    have h1 : (((pc.zip cs).filter fun pr => strictKeep maxD pr.1)).isEmpty = true := by
      simp [hc.1]
    have h2 : (!pc.isEmpty) = true := by
      simpa [List.isEmpty_iff] using hc.2
    simp only [h1, h2, Bool.and_self, if_pos]
  · rw [if_neg hc]
    rcases Classical.em
        ((((pc.zip cs).filter fun pr => strictKeep maxD pr.1)).isEmpty = true) with he | he
    · have hpc : pc = [] := by
        by_contra hne
        exact hc ⟨by simpa [List.isEmpty_iff] using he, hne⟩
      subst hpc
      simp
    · have : ((((pc.zip cs).filter fun pr => strictKeep maxD pr.1)).isEmpty
          && !pc.isEmpty) = false := by
        simp only [Bool.and_eq_false_iff]
        left
        exact Bool.eq_false_iff.mpr he
      simp only [this, Bool.false_eq_true, if_false]
end StereoReconstruction

namespace StereoReconstruction

/-- C3: the strict filter keeps exactly the points that are finite, inside
the norm bound and inside every per-coordinate bound; when it would empty a
non-empty cloud the result is instead the finite points among the first
min(10000, n) entries. -/
theorem filterPointCloud_points_spec (pc : List Pt3) (cs : List Color)
    (maxD : ℚ) (h : pc.length = cs.length) :
    (filterPointCloud pc cs maxD).1 =
      if pc.filter (strictKeep maxD) = [] ∧ pc ≠ [] then
        (pc.take 10000).filter allFinite
      else pc.filter (strictKeep maxD) := by
  have hz := filterPointCloud_eq pc cs maxD
  have hK : ((pc.zip cs).filter fun pr => strictKeep maxD pr.1).map Prod.fst
      = pc.filter (strictKeep maxD) := map_fst_filter_zip _ pc cs h
  have hF : (((pc.zip cs).take 10000).filter fun pr => allFinite pr.1).map Prod.fst
      = (pc.take 10000).filter allFinite := by
    rw [zip_take]
    exact map_fst_filter_zip _ _ _ (by simp [h])
  have hcond : (((pc.zip cs).filter fun pr => strictKeep maxD pr.1) = [] ∧ pc ≠ [])
      ↔ (pc.filter (strictKeep maxD) = [] ∧ pc ≠ []) := by
    constructor
    · rintro ⟨h1, h2⟩
      refine ⟨?_, h2⟩
      rw [← hK, h1]
      rfl
    · rintro ⟨h1, h2⟩
      refine ⟨?_, h2⟩
      have := hK
      rw [h1] at this
      exact List.map_eq_nil_iff.mp this
  rw [hz]
  by_cases hcnd : ((pc.zip cs).filter fun pr => strictKeep maxD pr.1) = [] ∧ pc ≠ []
  · rw [if_pos hcnd, if_pos (hcond.mp hcnd), List.unzip_eq_map]
    exact hF
  · rw [if_neg hcnd, if_neg (fun hc => hcnd (hcond.mpr hc)), List.unzip_eq_map]
    exact hK

/-- C3 witness at a concrete cloud: one point inside the bounds, one far
outside; the strict filter keeps exactly the first. -/
theorem filterPointCloud_points_spec_witness :
    ([mkPt 0 0 0, mkPt 100 0 0] : List Pt3).length = ([⟨1,2,3⟩, ⟨4,5,6⟩] : List Color).length ∧
    (filterPointCloud [mkPt 0 0 0, mkPt 100 0 0] [⟨1,2,3⟩, ⟨4,5,6⟩] 5).1 = [mkPt 0 0 0] := by
  refine ⟨rfl, ?_⟩
  rw [filterPointCloud_points_spec [mkPt 0 0 0, mkPt 100 0 0] [⟨1,2,3⟩, ⟨4,5,6⟩] 5 rfl]
  norm_num [strictKeep, allFinite, sqNorm, sqrtLt, mkPt, List.filter_cons, abs]

/-- C4: `filterPointCloud` is idempotent — applying it again to its own
output (with the same threshold) returns that output unchanged. -/
theorem filterPointCloud_idem (pc : List Pt3) (cs : List Color) (maxD : ℚ)
    (h : pc.length = cs.length) :
    filterPointCloud (filterPointCloud pc cs maxD).1
      (filterPointCloud pc cs maxD).2 maxD = filterPointCloud pc cs maxD := by
  clear h
  have hz := filterPointCloud_eq pc cs maxD
  by_cases hC : ((pc.zip cs).filter fun pr => strictKeep maxD pr.1) = [] ∧ pc ≠ []
  · -- fallback branch was taken: output is the finite prefix selection A
    rw [if_pos hC] at hz
    set A := ((pc.zip cs).take 10000).filter fun pr => allFinite pr.1 with hA
    have hKfalse : ∀ pr ∈ A, (strictKeep maxD pr.1) = false := by
      intro pr hpr
      have hmem : pr ∈ pc.zip cs :=
        List.mem_of_mem_take (List.mem_filter.mp hpr).1
      exact Bool.eq_false_iff.mpr (List.filter_eq_nil_iff.mp hC.1 pr hmem)
    have hB2 : A.filter (fun pr => strictKeep maxD pr.1) = [] :=
      List.filter_eq_nil_iff.mpr fun pr hpr =>
        Bool.eq_false_iff.mp (hKfalse pr hpr)
    have hz2 := filterPointCloud_eq (filterPointCloud pc cs maxD).1
      (filterPointCloud pc cs maxD).2 maxD
    rw [hz] at hz2 ⊢
    rw [List.zip_unzip] at hz2
    by_cases hAnil : A = []
    · rw [hz2, hAnil]
      simp
    · have hfst : A.unzip.1 ≠ [] := by
        rw [List.unzip_eq_map]
        simpa using hAnil
      rw [hz2, if_pos ⟨hB2, hfst⟩]
      have hlen : A.length ≤ 10000 :=
        le_trans (List.length_filter_le _ _) (List.length_take_le _ _)
      rw [List.take_of_length_le hlen]
      have hself : A.filter (fun pr => allFinite pr.1) = A :=
        List.filter_eq_self.mpr fun pr hpr => (List.mem_filter.mp hpr).2
      rw [hself]
  · -- strict branch was taken: output is the strict selection B
    rw [if_neg hC] at hz
    set B := (pc.zip cs).filter fun pr => strictKeep maxD pr.1 with hB
    have hz2 := filterPointCloud_eq (filterPointCloud pc cs maxD).1
      (filterPointCloud pc cs maxD).2 maxD
    rw [hz] at hz2 ⊢
    rw [List.zip_unzip] at hz2
    have hBB : B.filter (fun pr => strictKeep maxD pr.1) = B :=
      List.filter_eq_self.mpr fun pr hpr => (List.mem_filter.mp hpr).2
    rw [hBB] at hz2
    by_cases hBnil : B = []
    · have hfst : B.unzip.1 = [] := by
        rw [hBnil]; rfl
      rw [hz2, if_neg (fun hc => hc.2 hfst)]
    · rw [hz2, if_neg (fun hc => hBnil hc.1)]

/-- C4 witness at a concrete parallel cloud. -/
theorem filterPointCloud_idem_witness :
    ([mkPt 0 0 0, mkPt 100 0 0] : List Pt3).length = ([⟨1,2,3⟩, ⟨4,5,6⟩] : List Color).length ∧
    filterPointCloud (filterPointCloud [mkPt 0 0 0, mkPt 100 0 0] [⟨1,2,3⟩, ⟨4,5,6⟩] 5).1
      (filterPointCloud [mkPt 0 0 0, mkPt 100 0 0] [⟨1,2,3⟩, ⟨4,5,6⟩] 5).2 5
      = filterPointCloud [mkPt 0 0 0, mkPt 100 0 0] [⟨1,2,3⟩, ⟨4,5,6⟩] 5 :=
  ⟨rfl, filterPointCloud_idem [mkPt 0 0 0, mkPt 100 0 0] [⟨1,2,3⟩, ⟨4,5,6⟩] 5 rfl⟩

end StereoReconstruction

-- ### Folds that push one element (`push_back`) or one block at a time

theorem foldl_append_singleton {α β : Type} (f : α → β) :
    ∀ (l : List α) (init : List β),
      l.foldl (fun acc a => acc ++ [f a]) init = init ++ l.map f := by
  intro l
  induction l with
  | nil => intro init; simp
  | cons a t ih => intro init; simp [ih]

theorem foldl_append_block {α β : Type} (g : α → List β) :
    ∀ (l : List α) (init : List β),
      l.foldl (fun acc a => acc ++ g a) init = init ++ l.flatMap g := by
  intro l
  induction l with
  | nil => intro init; simp
  | cons a t ih => intro init; simp [ih]

namespace MonoCalibration

/-- The 3D object-point construction of `MonoCalibration::calibrateCamera`
(mono_calibration.cpp:42-53): per observation, nested `for (y) for (x)`
loops `push_back(Point3f(x*squareSize, y*squareSize, 0))`. -/
def objectPoints (n boardWidth boardHeight : ℕ) (squareSize : ℚ) :
    List (List Pt3) :=
  (List.range n).foldl (fun acc _ =>
    acc ++ [(List.range boardHeight).foldl (fun c3 (y : ℕ) =>
      (List.range boardWidth).foldl (fun c3 (x : ℕ) =>
        c3 ++ [mkPt (x * squareSize) (y * squareSize) 0]) c3) []]) []

end MonoCalibration

namespace StereoCalibration

/-- The 3D object-point construction of
`StereoCalibration::calibrateStereoCamera` (stereo_calibration.cpp:52-64):
textually the same nested loops as the monocular calibrator, one copy of
the board template per left/right observation pair. -/
def objectPoints (n boardWidth boardHeight : ℕ) (squareSize : ℚ) :
    List (List Pt3) :=
  (List.range n).foldl (fun acc _ =>
    acc ++ [(List.range boardHeight).foldl (fun c3 (y : ℕ) =>
      (List.range boardWidth).foldl (fun c3 (x : ℕ) =>
        c3 ++ [mkPt (x * squareSize) (y * squareSize) 0]) c3) []]) []

end StereoCalibration

/-- The canonical object-point template of the spec:
`{(x·s, y·s, 0) | 0 ≤ x < W, 0 ≤ y < H}` listed row-major
(`y` outer, `x` inner). -/
def canonicalTemplate (W H : ℕ) (s : ℚ) : List Pt3 :=
  (List.range H).flatMap fun (y : ℕ) =>
    (List.range W).map fun (x : ℕ) => mkPt (x * s) (y * s) 0

theorem boardLoop_eq_canonical (W H : ℕ) (s : ℚ) :
    (List.range H).foldl (fun c3 (y : ℕ) =>
      (List.range W).foldl (fun c3 (x : ℕ) =>
        c3 ++ [mkPt (x * s) (y * s) 0]) c3) [] = canonicalTemplate W H s := by
  have hstep : ∀ (c3 : List Pt3) (y : ℕ),
      (List.range W).foldl (fun c3 (x : ℕ) => c3 ++ [mkPt (x * s) (y * s) 0]) c3
        = c3 ++ (List.range W).map fun (x : ℕ) => mkPt (x * s) (y * s) 0 :=
    fun c3 y => foldl_append_singleton _ _ c3
  have hext := @List.foldl_ext (List Pt3) ℕ
    (fun c3 (y : ℕ) =>
      (List.range W).foldl (fun c3 (x : ℕ) => c3 ++ [mkPt (x * s) (y * s) 0]) c3)
    (fun c3 (y : ℕ) => c3 ++ ((List.range W).map fun (x : ℕ) => mkPt (x * s) (y * s) 0))
    ([] : List Pt3) (List.range H) (fun c3 y _ => hstep c3 y)
  rw [hext,
    foldl_append_block (fun (y : ℕ) => (List.range W).map fun (x : ℕ) => mkPt (x * s) (y * s) 0)
      (List.range H) []]
  rfl

/-- C6: both calibrators build the same canonical row-major z = 0 board
template and replicate one identical copy of it per corner observation. -/
theorem objectPoints_replicate_canonical (n W H : ℕ) (s : ℚ) :
    MonoCalibration.objectPoints n W H s
        = List.replicate n (canonicalTemplate W H s) ∧
    StereoCalibration.objectPoints n W H s
        = List.replicate n (canonicalTemplate W H s) := by
  refine ⟨?_, ?_⟩
  · unfold MonoCalibration.objectPoints
    rw [boardLoop_eq_canonical W H s, foldl_append_singleton
      (fun _ => canonicalTemplate W H s) (List.range n) []]
    simp [List.map_const']
  · unfold StereoCalibration.objectPoints
    rw [boardLoop_eq_canonical W H s, foldl_append_singleton
      (fun _ => canonicalTemplate W H s) (List.range n) []]
    simp [List.map_const']

-- ### Dense reconstruction: generatePointCloud (stereo_reconstruction.cpp:225-261)

/-- A disparity map: `rows × cols` matrix of float disparities,
`d y x` being `disparityMap.at<float>(y, x)`. -/
structure DispMap where
  rows : ℕ
  cols : ℕ
  d : ℕ → ℕ → ℚ

namespace StereoReconstruction

/-- Row `i` of `Q * (x, y, disparity, 1)^T` (the `cv::Mat_<double>(4,1)`
product at stereo_reconstruction.cpp:240). -/
def qdot (Q : Fin 4 → Fin 4 → ℚ) (i : Fin 4) (x y dsp : ℚ) : ℚ :=
  Q i 0 * x + Q i 1 * y + Q i 2 * dsp + Q i 3

/-- The perspective division of the homogeneous point (lines 242-244):
each coordinate is row `i` divided by row 3.  The quotient of finite
inputs is finite exactly when the denominator is nonzero (division by
zero gives ±inf or NaN). -/
def projectQ (Q : Fin 4 → Fin 4 → ℚ) (x y : ℕ) (dsp : ℚ) : Pt3 :=
  let w := qdot Q 3 x y dsp
  ⟨⟨qdot Q 0 x y dsp / w, decide (w ≠ 0)⟩,
   ⟨qdot Q 1 x y dsp / w, decide (w ≠ 0)⟩,
   ⟨qdot Q 2 x y dsp / w, decide (w ≠ 0)⟩⟩

/-- `StereoReconstruction::generatePointCloud`: the nested
`for (y) for (x)` loops push one projected point and the rectified-left
pixel's colour for every pixel with `disparity > 0`. -/
def generatePointCloud (dm : DispMap) (img : ℕ → ℕ → Color)
    (Q : Fin 4 → Fin 4 → ℚ) : List Pt3 × List Color :=
  (List.range dm.rows).foldl (fun acc (y : ℕ) =>
    (List.range dm.cols).foldl (fun acc (x : ℕ) =>
      if 0 < dm.d y x then
        (acc.1 ++ [projectQ Q x y (dm.d y x)], acc.2 ++ [img y x])
      else acc) acc) ([], [])

/-- The C++ return value `!pointCloud.empty()`. -/
def generateSuccess (dm : DispMap) (img : ℕ → ℕ → Color)
    (Q : Fin 4 → Fin 4 → ℚ) : Bool :=
  !(generatePointCloud dm img Q).1.isEmpty

end StereoReconstruction

/-- All pixels `(y, x)` of a `rows × cols` image in row-major order. -/
def pixelsRM (rows cols : ℕ) : List (ℕ × ℕ) :=
  (List.range rows).flatMap fun (y : ℕ) =>
    (List.range cols).map fun (x : ℕ) => (y, x)

theorem foldl_guard_push {α β γ : Type} (P : α → Bool) (f : α → β) (g : α → γ) :
    ∀ (l : List α) (acc : List β × List γ),
      l.foldl (fun acc a =>
          if P a then (acc.1 ++ [f a], acc.2 ++ [g a]) else acc) acc
        = (acc.1 ++ (l.filter P).map f, acc.2 ++ (l.filter P).map g) := by
  intro l
  induction l with
  | nil => intro acc; simp
  | cons a t ih =>
      intro acc
      by_cases hP : P a
      · simp [List.filter_cons, hP, ih]
      · simp [List.filter_cons, hP, ih]

theorem foldl_pair_append {α β γ : Type} (A : α → List β) (B : α → List γ) :
    ∀ (l : List α) (acc : List β × List γ),
      l.foldl (fun acc a => (acc.1 ++ A a, acc.2 ++ B a)) acc
        = (acc.1 ++ l.flatMap A, acc.2 ++ l.flatMap B) := by
  intro l
  induction l with
  | nil => intro acc; simp
  | cons a t ih => intro acc; simp [ih]

theorem pixelsRM_filter_map {β : Type} (rows cols : ℕ)
    (P : ℕ → ℕ → Bool) (F : ℕ → ℕ → β) :
    (((pixelsRM rows cols).filter fun p => P p.1 p.2).map fun p => F p.1 p.2)
      = (List.range rows).flatMap fun y =>
          (((List.range cols).filter fun x => P y x).map fun x => F y x) := by
  unfold pixelsRM
  rw [List.filter_flatMap, List.map_flatMap]
  refine List.flatMap_congr fun y _ => ?_
  rw [List.filter_map, List.map_map]
  rfl

namespace StereoReconstruction

/-- C5: the generated cloud holds, in row-major pixel order, exactly one
Q-projected point per pixel of strictly positive disparity, paired with
that pixel's colour from the rectified left image, and generation fails
(`!pointCloud.empty()` is false) exactly when no pixel has positive
disparity. -/
theorem generatePointCloud_spec (dm : DispMap) (img : ℕ → ℕ → Color)
    (Q : Fin 4 → Fin 4 → ℚ) :
    generatePointCloud dm img Q =
      ((((pixelsRM dm.rows dm.cols).filter fun p => decide (0 < dm.d p.1 p.2)).map
          fun p => projectQ Q p.2 p.1 (dm.d p.1 p.2)),
       (((pixelsRM dm.rows dm.cols).filter fun p => decide (0 < dm.d p.1 p.2)).map
          fun p => img p.1 p.2)) ∧
    (generateSuccess dm img Q = true ↔
      ∃ p ∈ pixelsRM dm.rows dm.cols, 0 < dm.d p.1 p.2) := by
  have hmain : generatePointCloud dm img Q =
      ((((pixelsRM dm.rows dm.cols).filter fun p => decide (0 < dm.d p.1 p.2)).map
          fun p => projectQ Q p.2 p.1 (dm.d p.1 p.2)),
       (((pixelsRM dm.rows dm.cols).filter fun p => decide (0 < dm.d p.1 p.2)).map
          fun p => img p.1 p.2)) := by
    unfold generatePointCloud
    have hrow : ∀ (acc : List Pt3 × List Color) (y : ℕ),
        (List.range dm.cols).foldl (fun acc (x : ℕ) =>
          if 0 < dm.d y x then
            (acc.1 ++ [projectQ Q x y (dm.d y x)], acc.2 ++ [img y x])
          else acc) acc
        = (acc.1 ++ (((List.range dm.cols).filter fun x => decide (0 < dm.d y x)).map
              fun x => projectQ Q x y (dm.d y x)),
           acc.2 ++ (((List.range dm.cols).filter fun x => decide (0 < dm.d y x)).map
              fun x => img y x)) := by
      intro acc y
      have hg := foldl_guard_push (fun x => decide (0 < dm.d y x))
        (fun x => projectQ Q x y (dm.d y x)) (fun x => img y x) (List.range dm.cols) acc
      simpa using hg
    have hext := @List.foldl_ext (List Pt3 × List Color) ℕ
      (fun acc (y : ℕ) =>
        (List.range dm.cols).foldl (fun acc (x : ℕ) =>
          if 0 < dm.d y x then
            (acc.1 ++ [projectQ Q x y (dm.d y x)], acc.2 ++ [img y x])
          else acc) acc)
      (fun acc (y : ℕ) =>
        (acc.1 ++ (((List.range dm.cols).filter fun x => decide (0 < dm.d y x)).map
            fun x => projectQ Q x y (dm.d y x)),
         acc.2 ++ (((List.range dm.cols).filter fun x => decide (0 < dm.d y x)).map
            fun x => img y x)))
      (([], []) : List Pt3 × List Color) (List.range dm.rows)
      (fun acc y _ => hrow acc y)
    rw [hext, foldl_pair_append]
    rw [pixelsRM_filter_map dm.rows dm.cols (fun y x => decide (0 < dm.d y x))
      (fun y x => projectQ Q x y (dm.d y x)),
      pixelsRM_filter_map dm.rows dm.cols (fun y x => decide (0 < dm.d y x))
      (fun y x => img y x)]
    rfl
  refine ⟨hmain, ?_⟩
  have h1 := congrArg Prod.fst hmain
  rw [generateSuccess, h1]
  simp [List.isEmpty_iff, List.filter_eq_nil_iff]

end StereoReconstruction

-- ### Corner detection batch (corner_detection.cpp:6-131)

/-- One observation: the ordered 2D corner points found in one image. -/
abbrev Obs := List (ℚ × ℚ)

/-- One directory entry of the input folder, as `detectAndDrawCorners`
sees it: whether it is a regular file, its (raw) extension, and the
outcome of `cv::imread` + `cv::findChessboardCorners` +
`cv::cornerSubPix` on it — `none` when the image failed to load or no
chessboard was found, `some corners` on success.  The detector itself is
the external vision library. -/
structure FileEntry where
  regular : Bool
  ext : String
  detect : Option Obs

/-- Case-insensitive match of the extension whitelist at
corner_detection.cpp:35 (`std::transform(..., ::tolower)` then compare). -/
def isImageExt (e : String) : Bool :=
  decide (e.map Char.toLower ∈ ([".jpg", ".jpeg", ".png", ".bmp", ".tiff"] : List String))

/-- `detectAndDrawCorners`: the input folder is `none` when
`std::filesystem::exists(inputFolder)` is false, otherwise the list of
directory entries.  The loop accumulates the successful observations
(`allCorners`); the batch returns `successCount > 0` and writes
`corner_data/corners.yml` iff `successCount > 0`.  Result: (return
value, whether the corners file was written). -/
def detectAndDrawCorners (folder : Option (List FileEntry)) : Bool × Bool :=
  match folder with
  | none => (false, false)
  | some entries =>
    let allCorners : List Obs := entries.foldl (fun acc e =>
      if e.regular && isImageExt e.ext then
        match e.detect with
        | some corners => acc ++ [corners]
        | none => acc
      else acc) []
    (!allCorners.isEmpty, !allCorners.isEmpty)

/-- A directory entry that contributes a successful observation. -/
def entrySucceeds (e : FileEntry) : Bool :=
  e.regular && isImageExt e.ext && e.detect.isSome

theorem detect_foldl_eq (entries : List FileEntry) :
    ∀ (acc : List Obs),
      entries.foldl (fun acc e =>
        if e.regular && isImageExt e.ext then
          match e.detect with
          | some corners => acc ++ [corners]
          | none => acc
        else acc) acc
      = acc ++ (entries.filter entrySucceeds).map (fun e => e.detect.getD []) := by
  induction entries with
  | nil => intro acc; simp
  | cons e t ih =>
      intro acc
      by_cases hre : (e.regular && isImageExt e.ext) = true
      · cases hdet : e.detect with
        | some corners =>
            have hs : entrySucceeds e = true := by
              simp [entrySucceeds, hdet]
              simpa using hre
            simp only [List.foldl_cons, hre, if_true, hdet, List.filter_cons, hs,
              List.map_cons, ih]
            simp [hdet]
        | none =>
            have hs : entrySucceeds e = false := by
              simp [entrySucceeds, hdet]
            simp only [List.foldl_cons, hre, if_true, hdet, List.filter_cons, hs,
              Bool.false_eq_true, if_false, ih]
      · have hs : entrySucceeds e = false := by
          simp only [entrySucceeds, Bool.and_eq_false_iff]
          left
          exact Bool.and_eq_false_iff.mp (Bool.eq_false_iff.mpr hre)
        simp only [List.foldl_cons, hre, Bool.false_eq_true, if_false,
          List.filter_cons, hs, ih]

/-- C2: the corner-extraction batch returns success iff some regular file
with a whitelisted image extension yielded a corner observation, it writes
the corners data file iff it succeeds, and a nonexistent or empty input
folder yields failure with no file written. -/
theorem detectAndDrawCorners_spec (folder : Option (List FileEntry)) :
    ((detectAndDrawCorners folder).1 = true ↔
      ∃ entries, folder = some entries ∧ ∃ e ∈ entries, entrySucceeds e = true) ∧
    (detectAndDrawCorners folder).2 = (detectAndDrawCorners folder).1 ∧
    detectAndDrawCorners none = (false, false) ∧
    detectAndDrawCorners (some []) = (false, false) := by
  refine ⟨?_, ?_, rfl, rfl⟩
  · cases folder with
    | none => simp [detectAndDrawCorners]
    | some entries =>
        simp only [detectAndDrawCorners, detect_foldl_eq entries [], List.nil_append]
        constructor
        · intro hne
          refine ⟨entries, rfl, ?_⟩
          rcases hmap : (entries.filter entrySucceeds).map (fun e => e.detect.getD [])
            with _ | ⟨c, t⟩
          · rw [hmap] at hne
            simp at hne
          · have : entries.filter entrySucceeds ≠ [] := by
              intro hnil
              rw [hnil] at hmap
              simp at hmap
            rcases List.exists_mem_of_ne_nil _ this with ⟨e, he⟩
            exact ⟨e, (List.mem_filter.mp he).1, (List.mem_filter.mp he).2⟩
        · rintro ⟨entries', heq, e, he, hs⟩
          cases heq
          have hmem : e ∈ entries.filter entrySucceeds := List.mem_filter.mpr ⟨he, hs⟩
          have : entries.filter entrySucceeds ≠ [] := by
            intro hnil
            rw [hnil] at hmem
            simp at hmem
          simp [List.isEmpty_iff, this]
  · cases folder with
    | none => rfl
    | some entries => rfl

-- ### Stereo calibration (stereo_calibration.cpp:8-128)

namespace StereoCalibration

/-- Outcome of `calibrateStereoCamera`: the boolean result together with
the structured files written under the output path. -/
structure CalibOutcome where
  success : Bool
  filesWritten : List String
deriving DecidableEq, Repr

/-- `StereoCalibration::calibrateStereoCamera`, control flow of
stereo_calibration.cpp:8-128.  Each corner-data load is `none` when the
`corners.yml` `FileStorage` failed to open, otherwise the parsed
`vector<vector<Point2f>>`.  The guards run in source order: unreadable
left, unreadable right, either dataset empty, size mismatch — each
returns failure before any structured file is written.  The calls to
`cv::stereoCalibrate`/`cv::stereoRectify` are the external solver;
`saveOk` abstracts whether `saveStereoCalibrationData` managed to create
`stereo_calibration.yml` (on its failure the function aborts before
writing the rectification file). -/
def calibrateStereoCamera (leftLoad rightLoad : Option (List Obs))
    (saveOk : Bool) : CalibOutcome :=
  match leftLoad with
  | none => ⟨false, []⟩
  | some leftImagePoints =>
    match rightLoad with
    | none => ⟨false, []⟩
    | some rightImagePoints =>
      if leftImagePoints.isEmpty || rightImagePoints.isEmpty then ⟨false, []⟩
      else if leftImagePoints.length ≠ rightImagePoints.length then ⟨false, []⟩
      else if saveOk then
        ⟨true, ["stereo_calibration.yml", "stereo_rectify.yml"]⟩
      else ⟨false, []⟩

/-- C1: with unequal observation counts, or an empty or unreadable
dataset on either side, stereo calibration fails and writes neither the
StereoRig file (`stereo_calibration.yml`) nor the RectificationSet file
(`stereo_rectify.yml`). -/
theorem calibrateStereoCamera_fails (leftLoad rightLoad : Option (List Obs))
    (saveOk : Bool)
    (h : leftLoad = none ∨ rightLoad = none ∨
      ∃ L R, leftLoad = some L ∧ rightLoad = some R ∧
        (L = [] ∨ R = [] ∨ L.length ≠ R.length)) :
    (calibrateStereoCamera leftLoad rightLoad saveOk).success = false ∧
    (calibrateStereoCamera leftLoad rightLoad saveOk).filesWritten = [] := by
  rcases h with h | h | ⟨L, R, hL, hR, hcase⟩
  · subst h
    exact ⟨rfl, rfl⟩
  · subst h
    cases leftLoad <;> exact ⟨rfl, rfl⟩
  · subst hL
    subst hR
    rcases hcase with h0 | h0 | h0
    · subst h0
      simp [calibrateStereoCamera]
    · subst h0
      simp [calibrateStereoCamera]
    · by_cases he : (L.isEmpty || R.isEmpty) = true
      · simp [calibrateStereoCamera, he]
      · simp only [calibrateStereoCamera]
        rw [if_neg he, if_pos h0]
        exact ⟨rfl, rfl⟩

/-- C1 witness: one observation on the left, none on the right. -/
theorem calibrateStereoCamera_fails_witness :
    (calibrateStereoCamera (some [[(0, 0)]]) (some []) true).success = false ∧
    (calibrateStereoCamera (some [[(0, 0)]]) (some []) true).filesWritten = [] :=
  calibrateStereoCamera_fails (some [[(0, 0)]]) (some []) true
    (Or.inr (Or.inr ⟨[[(0, 0)]], [], rfl, rfl, Or.inr (Or.inl rfl)⟩))

end StereoCalibration

-- ### Point-cloud files at token level
-- (stereo_reconstruction.cpp:263-310, model_viewer.cpp:10-104)

/-- One whitespace-separated token of a text file: a word or a number.
`operator<<` of a float/int emits `num v` carrying the exact value
(decimal formatting is abstracted away); `operator>>` reads it back. -/
inductive Tok where
  | w (s : String)
  | num (v : ℚ)
deriving DecidableEq, Repr

/-- One line of a text file. -/
abbrev Line := List Tok

/-- `iss >> (float lvalue)`: succeeds on a numeric token. -/
def readF : Tok → Option ℚ
  | Tok.num v => some v
  | Tok.w _ => none

/-- `iss >> (int lvalue)`: succeeds on an integral numeric token (a
fractional token would leave trailing characters and derail the stream;
only integral colour values occur in the claims). -/
def readI : Tok → Option ℤ
  | Tok.num v => if v.den = 1 then some v.num else none
  | Tok.w _ => none

/-- The `int → uchar` narrowing in `cv::Vec3b(b, g, r)`:
reduction modulo 256. -/
def toUchar (i : ℤ) : ℕ := (i % 256).toNat

namespace StereoReconstruction

/-- Output format selectors (stereo_reconstruction.h). -/
def PLY_FORMAT : ℤ := 0

/-- Output format selectors (stereo_reconstruction.h). -/
def OBJ_FORMAT : ℤ := 1

/-- Output format selectors (stereo_reconstruction.h). -/
def XYZ_FORMAT : ℤ := 2

/-- `StereoReconstruction::savePointCloud`
(stereo_reconstruction.cpp:263-310), returning the C++ boolean together
with the lines written.  `openOk` abstracts whether the `std::ofstream`
opened (on failure nothing is written and `false` is returned).  PLY
data lines write the colour channels in the order `[2] [1] [0]`, i.e.
r, g, b from the internal BGR storage.  Note the `if / else if` chain
has no final `else`: an unrecognized selector writes nothing — and the
function still returns `true`. -/
def savePointCloud (pointCloud : List Pt3) (colors : List Color)
    (format : ℤ) (openOk : Bool) : Bool × List Line :=
  if !openOk then (false, [])
  else if format = PLY_FORMAT then
    (true,
      [[Tok.w "ply"],
       [Tok.w "format", Tok.w "ascii", Tok.w "1.0"],
       [Tok.w "element", Tok.w "vertex", Tok.num pointCloud.length],
       [Tok.w "property", Tok.w "float", Tok.w "x"],
       [Tok.w "property", Tok.w "float", Tok.w "y"],
       [Tok.w "property", Tok.w "float", Tok.w "z"],
       [Tok.w "property", Tok.w "uchar", Tok.w "red"],
       [Tok.w "property", Tok.w "uchar", Tok.w "green"],
       [Tok.w "property", Tok.w "uchar", Tok.w "blue"],
       [Tok.w "end_header"]]
      ++ (pointCloud.zip colors).map fun pr =>
        [Tok.num pr.1.x.val, Tok.num pr.1.y.val, Tok.num pr.1.z.val,
         Tok.num pr.2.r, Tok.num pr.2.g, Tok.num pr.2.b])
  else if format = XYZ_FORMAT then
    (true, pointCloud.map fun p =>
      [Tok.num p.x.val, Tok.num p.y.val, Tok.num p.z.val])
  else if format = OBJ_FORMAT then
    (true, pointCloud.map fun p =>
      [Tok.w "v", Tok.num p.x.val, Tok.num p.y.val, Tok.num p.z.val])
  else (true, [])

end StereoReconstruction

namespace ModelViewer

/-- `iss >> x >> y >> z >> r >> g >> b` on one vertex line
(model_viewer.cpp:56): needs at least six tokens, three floats then
three ints; further tokens are ignored. -/
def parseXYZRGB : Line → Option ((ℚ × ℚ × ℚ) × (ℤ × ℤ × ℤ))
  | t1 :: t2 :: t3 :: t4 :: t5 :: t6 :: _ =>
    match readF t1, readF t2, readF t3, readI t4, readI t5, readI t6 with
    | some x, some y, some z, some r, some g, some b =>
        some ((x, y, z), (r, g, b))
    | _, _, _, _, _, _ => none
  | _ => none

/-- The re-parse `iss >> x >> y >> z` (model_viewer.cpp:59, also the XYZ
and OBJ line parses): needs at least three float tokens, further tokens
are ignored. -/
def parseXYZ : Line → Option (ℚ × ℚ × ℚ)
  | t1 :: t2 :: t3 :: _ =>
    match readF t1, readF t2, readF t3 with
    | some x, some y, some z => some (x, y, z)
    | _, _, _ => none
  | _ => none

/-- `line.find("element vertex") != npos` followed by
`iss >> temp1 >> temp2 >> vertexCount` (model_viewer.cpp:34-38): in the
token model a line declaring the count starts with the words `element`
`vertex`; the count is read as an int. -/
def elemVertexCount : Line → Option ℤ
  | Tok.w "element" :: Tok.w "vertex" :: t :: _ => readI t
  | _ => none

/-- The PLY header loop (model_viewer.cpp:33-43): scan every line for an
`element vertex N` declaration (on a failed count read the previous
value is kept), stop at the line `end_header`.  `none` when the file
ends without `end_header` (`headerEnded` stays false), otherwise the
final count and the remaining lines. -/
def scanHeader : List Line → ℤ → Option (ℤ × List Line)
  | [], _ => none
  | l :: rest, vc =>
    let vc' := (elemVertexCount l).getD vc
    if l = [Tok.w "end_header"] then some (vc', rest)
    else scanHeader rest vc'

/-- One iteration of the PLY vertex loop (model_viewer.cpp:51-63): a
6-field parse stores the point with colour `Vec3b(b, g, r)` (internal
BGR order); failing that, a 3-field re-parse stores the point with
default white; otherwise the line contributes nothing. -/
def parsePlyVertexLine (l : Line) : Option (Pt3 × Color) :=
  match parseXYZRGB l with
  | some ((x, y, z), (r, g, b)) =>
      some (mkPt x y z, ⟨toUchar b, toUchar g, toUchar r⟩)
  | none =>
    match parseXYZ l with
    | some (x, y, z) => some (mkPt x y z, ⟨255, 255, 255⟩)
    | none => none

/-- `ModelViewer::loadModel` (model_viewer.cpp:10-104), returning the
C++ boolean with the parsed points and colours.  `ext` is the
lowercased extension the function extracts from the filename
(`filename.substr(find_last_of(".") + 1)` through `::tolower`,
lines 23-24); `file` is `none` when the `std::ifstream` failed to
open.  The final return value is `!points.empty()`. -/
def loadModel (ext : String) (file : Option (List Line)) :
    Bool × List Pt3 × List Color :=
  match file with
  | none => (false, [], [])
  | some lines =>
    if ext = "ply" then
      match scanHeader lines 0 with
      | none => (false, [], [])
      | some (vc, rest) =>
        if vc = 0 then (false, [], [])
        else
          let parsed := (rest.take vc.toNat).filterMap parsePlyVertexLine
          (!parsed.isEmpty, parsed.unzip.1, parsed.unzip.2)
    else if ext = "xyz" then
      let parsed := lines.filterMap fun l =>
        (parseXYZ l).map fun v => mkPt v.1 v.2.1 v.2.2
      (!parsed.isEmpty, parsed, List.replicate parsed.length ⟨255, 255, 255⟩)
    else if ext = "obj" then
      let parsed := lines.filterMap fun l =>
        match l with
        | Tok.w "v" :: restL => (parseXYZ restL).map fun v => mkPt v.1 v.2.1 v.2.2
        | _ => none
      (!parsed.isEmpty, parsed, List.replicate parsed.length ⟨255, 255, 255⟩)
    else (false, [], [])

end ModelViewer

-- ### C7 / C8 / C9: serialization theorems

/-- The PLY header exactly as the spec lists it:
`ply / format ascii 1.0 / element vertex N / property float x,y,z /
property uchar red,green,blue / end_header`. -/
def specPlyHeader (n : ℕ) : List Line :=
  [[Tok.w "ply"],
   [Tok.w "format", Tok.w "ascii", Tok.w "1.0"],
   [Tok.w "element", Tok.w "vertex", Tok.num n],
   [Tok.w "property", Tok.w "float", Tok.w "x"],
   [Tok.w "property", Tok.w "float", Tok.w "y"],
   [Tok.w "property", Tok.w "float", Tok.w "z"],
   [Tok.w "property", Tok.w "uchar", Tok.w "red"],
   [Tok.w "property", Tok.w "uchar", Tok.w "green"],
   [Tok.w "property", Tok.w "uchar", Tok.w "blue"],
   [Tok.w "end_header"]]

/-- A PLY vertex data line `x y z r g b`: the colour leaves the internal
BGR storage re-ordered to RGB (channels `[2] [1] [0]`). -/
def plyDataLine (pr : Pt3 × Color) : Line :=
  [Tok.num pr.1.x.val, Tok.num pr.1.y.val, Tok.num pr.1.z.val,
   Tok.num pr.2.r, Tok.num pr.2.g, Tok.num pr.2.b]

/-- The spec's scenario PLY file: a header declaring 3 vertices, then
the data lines `0 0 0 255 0 0`, `1 0 0 0 255 0`, `0 1 0 0 0 255`. -/
def plyScenario : List Line :=
  specPlyHeader 3 ++
  [[Tok.num 0, Tok.num 0, Tok.num 0, Tok.num 255, Tok.num 0, Tok.num 0],
   [Tok.num 1, Tok.num 0, Tok.num 0, Tok.num 0, Tok.num 255, Tok.num 0],
   [Tok.num 0, Tok.num 1, Tok.num 0, Tok.num 0, Tok.num 0, Tok.num 255]]

/-- C7: PLY serialization writes exactly the spec's ASCII header followed
by one `x y z r g b` line per point with the colour re-ordered from BGR
storage to RGB, and the spec's 3-vertex scenario file loads to exactly 3
points whose colours are `(255,0,0), (0,255,0), (0,0,255)` in RGB order
(internally stored BGR). -/
theorem savePLY_format_and_scenario (pc : List Pt3) (cs : List Color)
    (h : pc.length = cs.length) :
    (StereoReconstruction.savePointCloud pc cs
        StereoReconstruction.PLY_FORMAT true).1 = true ∧
    (StereoReconstruction.savePointCloud pc cs
        StereoReconstruction.PLY_FORMAT true).2 =
      specPlyHeader pc.length ++ (pc.zip cs).map plyDataLine ∧
    (StereoReconstruction.savePointCloud pc cs
        StereoReconstruction.PLY_FORMAT true).2.length = 10 + pc.length ∧
    ModelViewer.loadModel "ply" (some plyScenario) =
      (true, [mkPt 0 0 0, mkPt 1 0 0, mkPt 0 1 0],
        [⟨0, 0, 255⟩, ⟨0, 255, 0⟩, ⟨255, 0, 0⟩]) ∧
    ((ModelViewer.loadModel "ply" (some plyScenario)).2.2.map
        fun c => (c.r, c.g, c.b)) =
      [(255, 0, 0), (0, 255, 0), (0, 0, 255)] := by
  refine ⟨rfl, rfl, ?_, by decide, by decide⟩
  have h2 : (StereoReconstruction.savePointCloud pc cs
      StereoReconstruction.PLY_FORMAT true).2 =
    specPlyHeader pc.length ++ (pc.zip cs).map plyDataLine := rfl
  rw [h2, List.length_append, List.length_map, List.length_zip, h, Nat.min_self]
  rfl

/-- C7 witness at a one-point cloud. -/
theorem savePLY_format_and_scenario_witness :
    ([mkPt 4 5 6] : List Pt3).length = ([⟨9, 8, 7⟩] : List Color).length ∧
    (StereoReconstruction.savePointCloud [mkPt 4 5 6] [⟨9, 8, 7⟩]
        StereoReconstruction.PLY_FORMAT true).2 =
      specPlyHeader 1 ++ [[Tok.num 4, Tok.num 5, Tok.num 6,
        Tok.num 7, Tok.num 8, Tok.num 9]] :=
  ⟨rfl, by
    have hspec := savePLY_format_and_scenario [mkPt 4 5 6] [⟨9, 8, 7⟩] rfl
    rw [hspec.2.1]
    decide⟩

theorem pt_eta_of_allFinite (p : Pt3) (hp : allFinite p = true) :
    mkPt p.x.val p.y.val p.z.val = p := by
  obtain ⟨⟨xv, xf⟩, ⟨yv, yf⟩, ⟨zv, zf⟩⟩ := p
  simp only [allFinite, Bool.and_eq_true] at hp
  obtain ⟨⟨hx, hy⟩, hz⟩ := hp
  subst hx
  subst hy
  subst hz
  rfl

/-- C8: serializing a non-empty all-finite cloud in XYZ format and
loading the file back succeeds and reproduces the points exactly (the
token file model carries the printed values exactly, so "to the text
format's precision" is exact equality here); the loaded colours are the
loader's default white. -/
theorem xyz_roundtrip (pc : List Pt3) (cs : List Color)
    (hne : pc ≠ []) (hfin : ∀ p ∈ pc, allFinite p = true) :
    ModelViewer.loadModel "xyz"
        (some (StereoReconstruction.savePointCloud pc cs
          StereoReconstruction.XYZ_FORMAT true).2) =
      (true, pc, List.replicate pc.length (⟨255, 255, 255⟩ : Color)) := by
  have hsave : (StereoReconstruction.savePointCloud pc cs
      StereoReconstruction.XYZ_FORMAT true).2
      = pc.map fun p => [Tok.num p.x.val, Tok.num p.y.val, Tok.num p.z.val] := rfl
  rw [hsave]
  have hparsed : ((pc.map fun p =>
        ([Tok.num p.x.val, Tok.num p.y.val, Tok.num p.z.val] : Line)).filterMap
      fun l => (ModelViewer.parseXYZ l).map fun v => mkPt v.1 v.2.1 v.2.2) = pc := by
    rw [List.filterMap_map]
    have hstep : ∀ p ∈ pc,
        ((fun l => (ModelViewer.parseXYZ l).map fun v => mkPt v.1 v.2.1 v.2.2) ∘
          fun p => ([Tok.num p.x.val, Tok.num p.y.val, Tok.num p.z.val] : Line)) p
        = some p := by
      intro p hp
      show some (mkPt p.x.val p.y.val p.z.val) = some p
      rw [pt_eta_of_allFinite p (hfin p hp)]
    calc (pc.filterMap
          ((fun l => (ModelViewer.parseXYZ l).map fun v => mkPt v.1 v.2.1 v.2.2) ∘
            fun p => ([Tok.num p.x.val, Tok.num p.y.val, Tok.num p.z.val] : Line)))
        = pc.filterMap some := List.filterMap_congr hstep
      _ = pc := List.filterMap_some pc
  have hie : pc.isEmpty = false := by
    simpa [List.isEmpty_iff] using hne
  simp only [ModelViewer.loadModel]
  rw [if_pos trivial, hparsed, hie]
  rfl

/-- C8 witness at a concrete one-point cloud. -/
theorem xyz_roundtrip_witness :
    (([mkPt 1 2 3] : List Pt3) ≠ [] ∧
      ∀ p ∈ ([mkPt 1 2 3] : List Pt3), allFinite p = true) ∧
    ModelViewer.loadModel "xyz"
        (some (StereoReconstruction.savePointCloud [mkPt 1 2 3] [⟨1, 1, 1⟩]
          StereoReconstruction.XYZ_FORMAT true).2) =
      (true, [mkPt 1 2 3], [⟨255, 255, 255⟩]) :=
  ⟨⟨by decide, by decide⟩,
    xyz_roundtrip [mkPt 1 2 3] [⟨1, 1, 1⟩] (by decide) (by decide)⟩

/-- C9 counterexample: with the unknown format selector 7 (not PLY = 0,
OBJ = 1 or XYZ = 2), `savePointCloud` writes no point data — and still
reports success, contradicting the claim that it reports failure. -/
theorem savePointCloud_unknown_format_counterexample :
    (7 : ℤ) ≠ StereoReconstruction.PLY_FORMAT ∧
    (7 : ℤ) ≠ StereoReconstruction.XYZ_FORMAT ∧
    (7 : ℤ) ≠ StereoReconstruction.OBJ_FORMAT ∧
    (StereoReconstruction.savePointCloud [mkPt 0 0 0] [⟨1, 2, 3⟩] 7 true).1 = true ∧
    (StereoReconstruction.savePointCloud [mkPt 0 0 0] [⟨1, 2, 3⟩] 7 true).2 = [] := by
  decide

/-- C9 amended: `loadModel` on any extension other than ply/xyz/obj
fails and yields no points, while `savePointCloud` on any selector other
than PLY/XYZ/OBJ writes no point data but still returns success. -/
theorem unsupportedFormat_amended (ext : String) (file : Option (List Line))
    (pc : List Pt3) (cs : List Color) (format : ℤ)
    (hext : ext ∉ (["ply", "xyz", "obj"] : List String))
    (hfmt : format ≠ StereoReconstruction.PLY_FORMAT ∧
      format ≠ StereoReconstruction.XYZ_FORMAT ∧
      format ≠ StereoReconstruction.OBJ_FORMAT) :
    ModelViewer.loadModel ext file = (false, [], []) ∧
    (StereoReconstruction.savePointCloud pc cs format true).1 = true ∧
    (StereoReconstruction.savePointCloud pc cs format true).2 = [] := by
  have hply : ext ≠ "ply" := fun he => hext (by simp [he])
  have hxyz : ext ≠ "xyz" := fun he => hext (by simp [he])
  have hobj : ext ≠ "obj" := fun he => hext (by simp [he])
  refine ⟨?_, ?_, ?_⟩
  · cases file with
    | none => rfl
    | some lines =>
        simp only [ModelViewer.loadModel]
        rw [if_neg hply, if_neg hxyz, if_neg hobj]
  · simp only [StereoReconstruction.savePointCloud]
    rw [if_neg hfmt.1, if_neg hfmt.2.1, if_neg hfmt.2.2]
    rfl
  · simp only [StereoReconstruction.savePointCloud]
    rw [if_neg hfmt.1, if_neg hfmt.2.1, if_neg hfmt.2.2]
    rfl

/-- C9 amended witness: extension `txt`, selector 7. -/
theorem unsupportedFormat_amended_witness :
    (("txt" : String) ∉ (["ply", "xyz", "obj"] : List String) ∧
      (7 : ℤ) ≠ StereoReconstruction.PLY_FORMAT ∧
      (7 : ℤ) ≠ StereoReconstruction.XYZ_FORMAT ∧
      (7 : ℤ) ≠ StereoReconstruction.OBJ_FORMAT) ∧
    ModelViewer.loadModel "txt"
        (some [[Tok.num 1, Tok.num 2, Tok.num 3]]) = (false, [], []) ∧
    (StereoReconstruction.savePointCloud [mkPt 0 0 0] [⟨1, 2, 3⟩] 7 true).1 = true ∧
    (StereoReconstruction.savePointCloud [mkPt 0 0 0] [⟨1, 2, 3⟩] 7 true).2 = [] :=
  ⟨⟨by decide, by decide, by decide, by decide⟩,
    unsupportedFormat_amended "txt" (some [[Tok.num 1, Tok.num 2, Tok.num 3]])
      [mkPt 0 0 0] [⟨1, 2, 3⟩] 7 (by decide) ⟨by decide, by decide, by decide⟩⟩

-- ### C10: the auto-scale block of reconstruct3D
-- (stereo_reconstruction.cpp:99-148)

/-- `FLT_MAX`, exactly: `(2 - 2^-23) * 2^127 = 2^128 - 2^104`. -/
def fltMax : ℚ := 2 ^ 128 - 2 ^ 104

theorem foldl_guard_filter {α β : Type} (P : α → Bool) (f : β → α → β) :
    ∀ (l : List α) (init : β),
      l.foldl (fun m a => if P a then f m a else m) init
        = (l.filter P).foldl f init := by
  intro l
  induction l with
  | nil => intro init; rfl
  | cons a t ih =>
      intro init
      by_cases hP : P a
      · simp [List.filter_cons, hP, ih]
      · simp [List.filter_cons, hP, ih]

namespace StereoReconstruction

/-- The per-axis minimum scan of the auto-scale block
(stereo_reconstruction.cpp:108-120): starting from `FLT_MAX`, fold
`min` over the coordinate of every all-finite point. -/
def minScan (f : Pt3 → ℚ) (pc : List Pt3) : ℚ :=
  pc.foldl (fun m p => if allFinite p then min m (f p) else m) fltMax

/-- The per-axis maximum scan, starting from `-FLT_MAX`. -/
def maxScan (f : Pt3 → ℚ) (pc : List Pt3) : ℚ :=
  pc.foldl (fun m p => if allFinite p then max m (f p) else m) (-fltMax)

/-- `std::max({rangeX, rangeY, rangeZ})`
(stereo_reconstruction.cpp:122-125). -/
def maxRange (pc : List Pt3) : ℚ :=
  max (max (maxScan (fun p => p.x.val) pc - minScan (fun p => p.x.val) pc)
        (maxScan (fun p => p.y.val) pc - minScan (fun p => p.y.val) pc))
      (maxScan (fun p => p.z.val) pc - minScan (fun p => p.z.val) pc)

/-- `point.x *= scaleFactor` on all three coordinates (lines 132-136);
a non-finite coordinate stays non-finite. -/
def scalePt (s : ℚ) (p : Pt3) : Pt3 :=
  ⟨⟨p.x.val * s, p.x.finite⟩, ⟨p.y.val * s, p.y.finite⟩, ⟨p.z.val * s, p.z.finite⟩⟩

/-- The auto-scale block of `reconstruct3D`
(stereo_reconstruction.cpp:99-148): inside `if (!pointCloud.empty())`,
scan the finite points for the coordinate ranges and, when
`0 < maxRange < 1`, multiply every coordinate of every point by
`10 / maxRange`. -/
def autoScale (pc : List Pt3) : List Pt3 :=
  if pc.isEmpty then pc
  else if 0 < maxRange pc ∧ maxRange pc < 1 then
    pc.map (scalePt (10 / maxRange pc))
  else pc

/-- The post-generation tail of `reconstruct3D` (lines 99-168): the
auto-scale block runs on the generated cloud, then `filterPointCloud`
with threshold 10000, then `savePointCloud`. -/
def reconstruct3DPost (pc : List Pt3) (cs : List Color) (outputFormat : ℤ) :
    Bool × List Line :=
  savePointCloud (filterPointCloud (autoScale pc) cs 10000).1
    (filterPointCloud (autoScale pc) cs 10000).2 outputFormat true

end StereoReconstruction

/-- The coordinates of the all-finite points along one axis. -/
def axisVals (f : Pt3 → ℚ) (pc : List Pt3) : List ℚ :=
  (pc.filter allFinite).map f

/-- The extent (max minus min) of the finite points along one axis, as
the spec describes it; 0 when there is no finite point. -/
def specRange (f : Pt3 → ℚ) (pc : List Pt3) : ℚ :=
  match axisVals f pc with
  | [] => 0
  | v :: vs => vs.foldl max v - vs.foldl min v

/-- The largest finite coordinate extent of the cloud. -/
def specMaxExtent (pc : List Pt3) : ℚ :=
  max (max (specRange (fun p => p.x.val) pc) (specRange (fun p => p.y.val) pc))
    (specRange (fun p => p.z.val) pc)

namespace StereoReconstruction

theorem scan_sub_eq_specRange (f : Pt3 → ℚ) (pc : List Pt3)
    (hb : ∀ p ∈ pc, allFinite p = true → |f p| ≤ fltMax)
    (hne : pc.filter allFinite ≠ []) :
    maxScan f pc - minScan f pc = specRange f pc := by
  rcases hv : (pc.filter allFinite).map f with _ | ⟨v, vs⟩
  · exact absurd (List.map_eq_nil_iff.mp hv) hne
  · have hvmem : v ∈ (pc.filter allFinite).map f := by
      rw [hv]
      exact List.mem_cons_self v vs
    obtain ⟨q, hq, hfq⟩ := List.mem_map.mp hvmem
    have hqb : |v| ≤ fltMax := by
      rw [← hfq]
      exact hb q (List.mem_filter.mp hq).1 (List.mem_filter.mp hq).2
    have hminu : minScan f pc = vs.foldl min v := by
      unfold minScan
      rw [foldl_guard_filter allFinite (fun m p => min m (f p)) pc fltMax,
        ← List.foldl_map f min (pc.filter allFinite) fltMax, hv, List.foldl_cons,
        min_eq_right (abs_le.mp hqb).2]
    have hmaxu : maxScan f pc = vs.foldl max v := by
      unfold maxScan
      rw [foldl_guard_filter allFinite (fun m p => max m (f p)) pc (-fltMax),
        ← List.foldl_map f max (pc.filter allFinite) (-fltMax), hv, List.foldl_cons,
        max_eq_right (abs_le.mp hqb).1]
    rw [hminu, hmaxu, specRange, axisVals, hv]

/-- C10: before filtering and serialization, `reconstruct3D` rescales
the generated cloud exactly when the largest finite coordinate extent
lies strictly between 0 and 1, multiplying every coordinate of every
point by 10 divided by that extent (and `reconstruct3DPost` applies this
block before `filterPointCloud` and `savePointCloud`).  The hypothesis
is the float range invariant: a finite coordinate is at most `FLT_MAX`
in magnitude. -/
theorem autoScale_spec (pc : List Pt3)
    (hbound : ∀ p ∈ pc, allFinite p = true →
      |p.x.val| ≤ fltMax ∧ |p.y.val| ≤ fltMax ∧ |p.z.val| ≤ fltMax) :
    autoScale pc =
      (if 0 < specMaxExtent pc ∧ specMaxExtent pc < 1 then
        pc.map (scalePt (10 / specMaxExtent pc))
      else pc) ∧
    ∀ cs outputFormat, reconstruct3DPost pc cs outputFormat =
      savePointCloud (filterPointCloud (autoScale pc) cs 10000).1
        (filterPointCloud (autoScale pc) cs 10000).2 outputFormat true := by
  refine ⟨?_, fun cs outputFormat => rfl⟩
  by_cases hne : pc.filter allFinite = []
  · have hspec : specMaxExtent pc = 0 := by
      simp [specMaxExtent, specRange, axisVals, hne]
    have hcond2 : ¬(0 < specMaxExtent pc ∧ specMaxExtent pc < 1) := by
      rw [hspec]
      rintro ⟨h0, _⟩
      exact lt_irrefl 0 h0
    rw [if_neg hcond2]
    unfold autoScale
    by_cases hpc : pc.isEmpty
    · rw [if_pos hpc]
    · rw [if_neg hpc]
      have hflt : (0 : ℚ) < fltMax := by norm_num [fltMax]
      have hms : ∀ f : Pt3 → ℚ, minScan f pc = fltMax := by
        intro f
        unfold minScan
        rw [foldl_guard_filter allFinite (fun m p => min m (f p)) pc fltMax, hne]
        rfl
      have hMs : ∀ f : Pt3 → ℚ, maxScan f pc = -fltMax := by
        intro f
        unfold maxScan
        rw [foldl_guard_filter allFinite (fun m p => max m (f p)) pc (-fltMax), hne]
        rfl
      have hmr : maxRange pc = -fltMax - fltMax := by
        unfold maxRange
        rw [hms (fun p => p.x.val), hms (fun p => p.y.val), hms (fun p => p.z.val),
          hMs (fun p => p.x.val), hMs (fun p => p.y.val), hMs (fun p => p.z.val),
          max_self, max_self]
      rw [if_neg ?hnc]
      case hnc =>
        rw [hmr]
        rintro ⟨h0, _⟩
        linarith
  · have hpcne : pc ≠ [] := by
      intro h
      rw [h] at hne
      exact hne rfl
    have hpc : pc.isEmpty = false := by
      simpa [List.isEmpty_iff] using hpcne
    have hx := scan_sub_eq_specRange (fun p => p.x.val) pc
      (fun p hp hf => (hbound p hp hf).1) hne
    have hy := scan_sub_eq_specRange (fun p => p.y.val) pc
      (fun p hp hf => (hbound p hp hf).2.1) hne
    have hz := scan_sub_eq_specRange (fun p => p.z.val) pc
      (fun p hp hf => (hbound p hp hf).2.2) hne
    have heq : maxRange pc = specMaxExtent pc := by
      unfold maxRange specMaxExtent
      rw [hx, hy, hz]
    unfold autoScale
    rw [hpc, heq]
    rfl

end StereoReconstruction

namespace StereoReconstruction

/-- C10 witness: a two-point cloud of extent 1/2. -/
theorem autoScale_spec_witness :
    (∀ p ∈ ([mkPt 0 0 0, mkPt (1/2) 0 0] : List Pt3), allFinite p = true →
      |p.x.val| ≤ fltMax ∧ |p.y.val| ≤ fltMax ∧ |p.z.val| ≤ fltMax) ∧
    (autoScale [mkPt 0 0 0, mkPt (1/2) 0 0] =
      (if 0 < specMaxExtent [mkPt 0 0 0, mkPt (1/2) 0 0] ∧
          specMaxExtent [mkPt 0 0 0, mkPt (1/2) 0 0] < 1 then
        [mkPt 0 0 0, mkPt (1/2) 0 0].map
          (scalePt (10 / specMaxExtent [mkPt 0 0 0, mkPt (1/2) 0 0]))
      else [mkPt 0 0 0, mkPt (1/2) 0 0]) ∧
    ∀ cs outputFormat,
      reconstruct3DPost [mkPt 0 0 0, mkPt (1/2) 0 0] cs outputFormat =
        savePointCloud
          (filterPointCloud (autoScale [mkPt 0 0 0, mkPt (1/2) 0 0]) cs 10000).1
          (filterPointCloud (autoScale [mkPt 0 0 0, mkPt (1/2) 0 0]) cs 10000).2
          outputFormat true) := by
  have hb : ∀ p ∈ ([mkPt 0 0 0, mkPt (1/2) 0 0] : List Pt3), allFinite p = true →
      |p.x.val| ≤ fltMax ∧ |p.y.val| ≤ fltMax ∧ |p.z.val| ≤ fltMax := by
    intro p hp _
    fin_cases hp <;> refine ⟨?_, ?_, ?_⟩ <;> rw [abs_le] <;>
      refine ⟨?_, ?_⟩ <;> norm_num [mkPt, fltMax]
  exact ⟨hb, autoScale_spec [mkPt 0 0 0, mkPt (1/2) 0 0] hb⟩

end StereoReconstruction
